import Mathlib

/-!
# Shallow embedding of `langchain_community/callbacks/weavel_callback.py`

The source file defines a single callback handler class, `WeavelCallbackHandler`,
whose mutable attributes we model as a Lean structure and whose lifecycle hooks
we model as pure state-transition functions.  Each hook returns the new handler
state, the list of HTTP requests it attempted to send (in order), and the list
of log lines it emitted.  The outer return type is `Except String …`: an
`Except.error` value would represent a Python exception propagating out of the
hook to the caller; the `try/except` wrapper in the source is modelled by
`runHook`, which converts every exception raised by the hook body into an
error-level log line.

Because `requests.post` can either return a response (with an HTTP status code
that the source never inspects) or raise an exception, each hook takes an
oracle `post : HttpRequest → PostResult` describing the network behaviour, and
a string `now` standing for `datetime.now(timezone.utc).isoformat()`.
-/

/-- JSON values, as assembled for the `json=` request bodies in the source. -/
inductive Json where
  | null
  | str (s : String)
  | obj (fields : List (String × Json))

/-- Outcome of one `requests.post` call: the call either completes and returns
a response carrying some HTTP status code (the source never inspects it), or
raises an exception whose text is `msg`. -/
inductive PostResult where
  | completed (status : Nat)
  | raised (msg : String)

/-- `true` exactly when the post attempt completed (did not raise). -/
def completes : PostResult → Bool
  | PostResult.completed _ => true
  | PostResult.raised _ => false

/-- An outbound HTTP request, as built by `requests.post(url, headers=…, json=…)`. -/
structure HttpRequest where
  method : String
  url : String
  headers : List (String × String)
  body : Json

/-- A chat message.  The source only distinguishes `HumanMessage` instances
from every other `BaseMessage` subclass, and only reads `str(message.content)`. -/
inductive BaseMessage where
  | human (content : String)
  | other (content : String)

/-- The `isinstance(message, HumanMessage)` test. -/
def isHuman : BaseMessage → Bool
  | BaseMessage.human _ => true
  | BaseMessage.other _ => false

/-- One candidate completion inside a generation batch; the source reads only
`generation[0].text`. -/
structure Generation where
  text : String

/-- The pair of attributes `self.tool_name` / `self.tool_inputs` set by
`on_tool_start`.  `tool_name = none` models the Python value `None`
(`serialized.get("name", None)` returned `None`, or the stored value was the
`None` object). -/
structure ToolCtx where
  tool_name : Option Json
  tool_inputs : Option Json

/-- The mutable attributes of a `WeavelCallbackHandler` instance.

`toolCtx = none` models the situation before the first `on_tool_start` call,
when the attributes `tool_name` / `tool_inputs` do not exist yet (so reading
them raises `AttributeError`).  The scratch attribute `self.user_message`,
which is written by `on_chat_model_start` and never read by any other method,
is modelled as a local variable of that hook. -/
structure WeavelCallbackHandler where
  user_id : String
  trace_id : String
  user_message_id : Option String
  user_message_metadata : Option Json
  assistant_message_id : Option String
  assistant_message_metadata : Option Json
  weavel_api_key : Option String
  saved_user_messages : List String
  saved_assistant_messages : List String
  toolCtx : Option ToolCtx

/-- `WEAVEL_DEFAULT_API_URL` from the source. -/
def WEAVEL_DEFAULT_API_URL : String := "https://api.weavel.ai"

/-- Python truthiness test `not x` for an optional string: `None` and the
empty string are falsy. -/
def pyFalsy : Option String → Bool
  | none => true
  | some s => s == ""

/-- `WeavelCallbackHandler.__init__`.  `user_id` / `trace_id` are modelled as
`Option String` so that an absent (Python `None`) argument is expressible;
`weavel_api_key` is the result of `os.getenv("WEAVEL_API_KEY")`.  The
constructor raises `ValueError` (here: `Except.error`) when
`not user_id or not trace_id` holds. -/
def initHandler (user_id trace_id : Option String)
    (user_message_id : Option String) (user_message_metadata : Option Json)
    (assistant_message_id : Option String) (assistant_message_metadata : Option Json)
    (weavel_api_key : Option String) : Except String WeavelCallbackHandler :=
  if pyFalsy user_id || pyFalsy trace_id then
    Except.error "user_id and trace_id must be passed in kwargs"
  else
    Except.ok
      { user_id := user_id.getD ""
        trace_id := trace_id.getD ""
        user_message_id := user_message_id
        user_message_metadata := user_message_metadata
        assistant_message_id := assistant_message_id
        assistant_message_metadata := assistant_message_metadata
        weavel_api_key := weavel_api_key
        saved_user_messages := []
        saved_assistant_messages := []
        toolCtx := none }

/-- Helper for `get_last_user_message`: first `HumanMessage` content in a list. -/
def firstHuman : List BaseMessage → Option String
  | [] => none
  | BaseMessage.human c :: _ => some c
  | BaseMessage.other _ :: rest => firstHuman rest

/-- `get_last_user_message`: scan the reversed list for the last `HumanMessage`. -/
def get_last_user_message (messages : List BaseMessage) : Option String :=
  firstHuman messages.reverse

/-- The `Authorization` header value `f"Bearer {self.weavel_api_key}"`; Python
string interpolation renders the `None` object as the text `None`. -/
def bearer (key : Option String) : String :=
  "Bearer " ++ (match key with | some k => k | none => "None")

/-- JSON serialization of an optional string (`None` becomes `null`). -/
def optStrJson : Option String → Json
  | none => Json.null
  | some s => Json.str s

/-- JSON serialization of an optional JSON value (`None` becomes `null`). -/
def optJson : Option Json → Json
  | none => Json.null
  | some j => j

/-- The request built in `on_chat_model_start` (role `"user"`). -/
def userCaptureRequest (st : WeavelCallbackHandler) (content now : String) : HttpRequest :=
  { method := "POST"
    url := WEAVEL_DEFAULT_API_URL ++ "/capture/trace_data"
    headers := [("Authorization", bearer st.weavel_api_key)]
    body := Json.obj
      [("user_id", Json.str st.user_id),
       ("trace_id", Json.str st.trace_id),
       ("role", Json.str "user"),
       ("content", Json.str content),
       ("trace_data_id", optStrJson st.user_message_id),
       ("metadata", optJson st.user_message_metadata),
       ("timestamp", Json.str now)] }

/-- The request built in `on_llm_end` (role `"assistant"`). -/
def assistantCaptureRequest (st : WeavelCallbackHandler) (content now : String) : HttpRequest :=
  { method := "POST"
    url := WEAVEL_DEFAULT_API_URL ++ "/capture/trace_data"
    headers := [("Authorization", bearer st.weavel_api_key)]
    body := Json.obj
      [("user_id", Json.str st.user_id),
       ("trace_id", Json.str st.trace_id),
       ("role", Json.str "assistant"),
       ("content", Json.str content),
       ("trace_data_id", optStrJson st.assistant_message_id),
       ("metadata", optJson st.assistant_message_metadata),
       ("timestamp", Json.str now)] }

/-- The request built in `on_tool_end`, with
`properties = {"inputs": self.tool_inputs, "output": output}`. -/
def trackEventRequest (st : WeavelCallbackHandler) (name : Json)
    (inputs : Option Json) (output : Json) (now : String) : HttpRequest :=
  { method := "POST"
    url := WEAVEL_DEFAULT_API_URL ++ "/capture/track_event"
    headers := [("Authorization", bearer st.weavel_api_key)]
    body := Json.obj
      [("user_id", Json.str st.user_id),
       ("trace_id", Json.str st.trace_id),
       ("name", name),
       ("properties", Json.obj [("inputs", optJson inputs), ("output", output)]),
       ("timestamp", Json.str now)] }

/-- The log line `f"[Weavel] An error occurred in {hook}: {e}"`. -/
def errLog (hook msg : String) : String :=
  "[Weavel] An error occurred in " ++ hook ++ ": " ++ msg

/-- The `try/except Exception` wrapper shared by all four hooks: an exception
raised by the hook body becomes one error-level log line naming the hook, and
the hook returns normally (the result is always `Except.ok`); the partial
state changes and requests made before the exception are kept, as in Python. -/
def runHook (hook : String) :
    WeavelCallbackHandler × List HttpRequest × Option String →
      Except String (WeavelCallbackHandler × List HttpRequest × List String)
  | (st, reqs, none) => Except.ok (st, reqs, [])
  | (st, reqs, some e) => Except.ok (st, reqs, [errLog hook e])

/-- Body of `on_chat_model_start` (inside the `try`):
`messages[0]` (raising `IndexError` on an empty list), `get_last_user_message`,
the dedup test against `saved_user_messages`, the `requests.post` call, and the
append to `saved_user_messages` that only happens when the post completed. -/
def chatStartBody (st : WeavelCallbackHandler) (messages : List (List BaseMessage))
    (post : HttpRequest → PostResult) (now : String) :
    WeavelCallbackHandler × List HttpRequest × Option String :=
  match messages with
  | [] => (st, [], some "list index out of range")
  | first :: _ =>
    match get_last_user_message first with
    | none => (st, [], none)
    | some m =>
      if m ∈ st.saved_user_messages then (st, [], none)
      else
        match post (userCaptureRequest st m now) with
        | PostResult.raised e => (st, [userCaptureRequest st m now], some e)
        | PostResult.completed _ =>
          ({ st with saved_user_messages := st.saved_user_messages ++ [m] },
           [userCaptureRequest st m now], none)

/-- `on_chat_model_start`. -/
def on_chat_model_start (st : WeavelCallbackHandler) (messages : List (List BaseMessage))
    (post : HttpRequest → PostResult) (now : String) :
    Except String (WeavelCallbackHandler × List HttpRequest × List String) :=
  runHook "on_chat_model_start" (chatStartBody st messages post now)

/-- Body of `on_llm_end` (inside the `try`): iterate over
`response.generations`; `generation[0]` raises `IndexError` on an empty batch;
a dedup hit on `saved_assistant_messages` returns from the whole loop; a
completed post appends `generation[0].text` and the loop continues. -/
def llmEndBody (post : HttpRequest → PostResult) (now : String) :
    WeavelCallbackHandler → List (List Generation) →
      WeavelCallbackHandler × List HttpRequest × Option String
  | st, [] => (st, [], none)
  | st, batch :: rest =>
    match batch with
    | [] => (st, [], some "list index out of range")
    | g :: _ =>
      if g.text ∈ st.saved_assistant_messages then (st, [], none)
      else
        match post (assistantCaptureRequest st g.text now) with
        | PostResult.raised e => (st, [assistantCaptureRequest st g.text now], some e)
        | PostResult.completed _ =>
          let p := llmEndBody post now
            { st with saved_assistant_messages := st.saved_assistant_messages ++ [g.text] } rest
          (p.1, assistantCaptureRequest st g.text now :: p.2.1, p.2.2)

/-- `on_llm_end`. -/
def on_llm_end (st : WeavelCallbackHandler) (generations : List (List Generation))
    (post : HttpRequest → PostResult) (now : String) :
    Except String (WeavelCallbackHandler × List HttpRequest × List String) :=
  runHook "on_llm_end" (llmEndBody post now st generations)

/-- Python `dict.get(key, None)` on an association list. -/
def dictGet : List (String × Json) → String → Option Json
  | [], _ => none
  | (k, v) :: rest, key => if k == key then some v else dictGet rest key

/-- `serialized.get("name", None)`, collapsing a stored JSON `null` (the
Python `None` object) with an absent key: both make `self.tool_name` the
Python value `None`. -/
def getNameOrNone (serialized : List (String × Json)) : Option Json :=
  match dictGet serialized "name" with
  | some Json.null => none
  | some j => some j
  | none => none

/-- Body of `on_tool_start` (inside the `try`): store
`(serialized.get("name", None), inputs)`, unconditionally overwriting any
previous pending tool context.  Nothing in the body can raise. -/
def toolStartBody (st : WeavelCallbackHandler) (serialized : List (String × Json))
    (inputs : Option Json) :
    WeavelCallbackHandler × List HttpRequest × Option String :=
  ({ st with toolCtx := some { tool_name := getNameOrNone serialized, tool_inputs := inputs } },
   [], none)

/-- `on_tool_start`. -/
def on_tool_start (st : WeavelCallbackHandler) (serialized : List (String × Json))
    (inputs : Option Json) :
    Except String (WeavelCallbackHandler × List HttpRequest × List String) :=
  runHook "on_tool_start" (toolStartBody st serialized inputs)

/-- Body of `on_tool_end` (inside the `try`): reading `self.tool_name` raises
`AttributeError` when no `on_tool_start` ever ran; a stored `None` name raises
`ValueError("name must be passed in serialized")`; otherwise one track-event
post is attempted.  The pending tool context is never modified. -/
def toolEndBody (st : WeavelCallbackHandler) (output : Json)
    (post : HttpRequest → PostResult) (now : String) :
    WeavelCallbackHandler × List HttpRequest × Option String :=
  match st.toolCtx with
  | none => (st, [], some "object has no attribute tool_name")
  | some ctx =>
    match ctx.tool_name with
    | none => (st, [], some "name must be passed in serialized")
    | some n =>
      match post (trackEventRequest st n ctx.tool_inputs output now) with
      | PostResult.raised e => (st, [trackEventRequest st n ctx.tool_inputs output now], some e)
      | PostResult.completed _ => (st, [trackEventRequest st n ctx.tool_inputs output now], none)

/-- `on_tool_end`. -/
def on_tool_end (st : WeavelCallbackHandler) (output : Json)
    (post : HttpRequest → PostResult) (now : String) :
    Except String (WeavelCallbackHandler × List HttpRequest × List String) :=
  runHook "on_tool_end" (toolEndBody st output post now)

/-- The requests attempted by a hook call (empty if the hook somehow errored). -/
def okReqs (r : Except String (WeavelCallbackHandler × List HttpRequest × List String)) :
    List HttpRequest :=
  match r with
  | Except.ok (_, reqs, _) => reqs
  | Except.error _ => []

/-- Look up a key in the JSON object body of a request. -/
def bodyField (r : HttpRequest) (key : String) : Option Json :=
  match r.body with
  | Json.obj fields => dictGet fields key
  | _ => none

/-- The keys of the JSON object body of a request, in order. -/
def bodyKeys (r : HttpRequest) : List String :=
  match r.body with
  | Json.obj fields => fields.map Prod.fst
  | _ => []

/-- The user message that a chat-start call extracts from its argument:
`get_last_user_message(messages[0])`, or nothing when `messages` is empty
(in which case the hook body raises `IndexError` before extracting). -/
def extractUserMessage (c : List (List BaseMessage)) : Option String :=
  match c with
  | [] => none
  | first :: _ => get_last_user_message first

/-- Run a sequence of `on_chat_model_start` calls on one handler instance,
collecting all attempted requests in order. -/
def runChatStarts (post : HttpRequest → PostResult) (now : String) :
    WeavelCallbackHandler → List (List (List BaseMessage)) →
      WeavelCallbackHandler × List HttpRequest
  | st, [] => (st, [])
  | st, c :: cs =>
    match on_chat_model_start st c post now with
    | Except.ok (st1, reqs, _) =>
      let p := runChatStarts post now st1 cs
      (p.1, reqs ++ p.2)
    | Except.error _ => (st, [])

/-- Modelled from the spec (testable property for the start hook): the user
messages that the de-duplication discipline should send, given the list of
messages extracted by successive chat-start calls — every extracted message
not string-equal to a previously sent (or initially saved) one. -/
def specUserSends : List String → List (Option String) → List String
  | _, [] => []
  | saved, none :: rest => specUserSends saved rest
  | saved, some m :: rest =>
    if m ∈ saved then specUserSends saved rest
    else m :: specUserSends (saved ++ [m]) rest

/-- Modelled from the spec (§4.2): the assistant texts that `on_llm_end`
should send — process the batches in order, inspecting each batch's first
candidate text, and stop the whole loop at the first text already present in
the assistant de-duplication sequence. -/
def specAssistantSends : List String → List (List Generation) → List String
  | _, [] => []
  | _, [] :: _ => []
  | saved, (g :: _) :: rest =>
    if g.text ∈ saved then []
    else g.text :: specAssistantSends (saved ++ [g.text]) rest

/-- A network oracle on which every post completes with status 200. -/
def alwaysOk : HttpRequest → PostResult := fun _ => PostResult.completed 200

/-- A network oracle on which every post completes with status 500. -/
def always500 : HttpRequest → PostResult := fun _ => PostResult.completed 500

/-- A network oracle that raises exactly on requests whose body content is
the string "b". -/
def failOnB : HttpRequest → PostResult := fun r =>
  match bodyField r "content" with
  | some (Json.str s) => if s == "b" then PostResult.raised "boom" else PostResult.completed 200
  | _ => PostResult.completed 200

/-- A network oracle that always raises. -/
def alwaysRaise : HttpRequest → PostResult := fun _ => PostResult.raised "connection error"

/-- A freshly constructed handler instance, used by concrete witnesses. -/
def handler0 : WeavelCallbackHandler :=
  { user_id := "u1"
    trace_id := "t1"
    user_message_id := none
    user_message_metadata := none
    assistant_message_id := none
    assistant_message_metadata := none
    weavel_api_key := some "k"
    saved_user_messages := []
    saved_assistant_messages := []
    toolCtx := none }

/-- A handler whose pending tool context stores the empty string as tool name. -/
def handlerEmptyName : WeavelCallbackHandler :=
  { handler0 with toolCtx := some { tool_name := some (Json.str ""), tool_inputs := none } }

/-- A handler whose pending tool context stores a normal tool name and inputs. -/
def handlerTool : WeavelCallbackHandler :=
  { handler0 with
    toolCtx := some { tool_name := some (Json.str "search"),
                      tool_inputs := some (Json.obj [("q", Json.str "x")]) } }

/-- A handler that has already sent the assistant message "b". -/
def handlerSentB : WeavelCallbackHandler :=
  { handler0 with saved_assistant_messages := ["b"] }

/-! ## Helper lemmas -/

/-- The capture request reads none of the mutable de-duplication state. -/
@[simp]
theorem userCaptureRequest_saved (st : WeavelCallbackHandler) (X : List String) (m now : String) :
    userCaptureRequest { st with saved_user_messages := X } m now =
      userCaptureRequest st m now := rfl

@[simp]
theorem assistantCaptureRequest_saved (st : WeavelCallbackHandler) (X : List String)
    (m now : String) :
    assistantCaptureRequest { st with saved_assistant_messages := X } m now =
      assistantCaptureRequest st m now := rfl

theorem runHook_none (hook : String) (st : WeavelCallbackHandler) (reqs : List HttpRequest) :
    runHook hook (st, reqs, none) = Except.ok (st, reqs, []) := rfl

theorem runHook_some (hook : String) (st : WeavelCallbackHandler) (reqs : List HttpRequest)
    (e : String) :
    runHook hook (st, reqs, some e) = Except.ok (st, reqs, [errLog hook e]) := rfl

theorem runHook_isOk (hook : String) (x : WeavelCallbackHandler × List HttpRequest × Option String) :
    ∃ o, runHook hook x = Except.ok o := by
  rcases x with ⟨st, reqs, err⟩
  cases err with
  | none => exact ⟨(st, reqs, []), rfl⟩
  | some e => exact ⟨(st, reqs, [errLog hook e]), rfl⟩

theorem okReqs_runHook (hook : String)
    (x : WeavelCallbackHandler × List HttpRequest × Option String) :
    okReqs (runHook hook x) = x.2.1 := by
  rcases x with ⟨st, reqs, err⟩
  cases err <;> rfl

/-- Every request attempted by the chat-start body is the user capture request
for some content. -/
theorem chatStartBody_reqs (st : WeavelCallbackHandler) (messages : List (List BaseMessage))
    (post : HttpRequest → PostResult) (now : String) :
    ∀ r ∈ (chatStartBody st messages post now).2.1, ∃ m, r = userCaptureRequest st m now := by
  rcases messages with _ | ⟨first, tail⟩
  · intro r hr; simp [chatStartBody] at hr
  · simp only [chatStartBody]
    cases hg : get_last_user_message first with
    | none => intro r hr; simp at hr
    | some m =>
      by_cases hm : m ∈ st.saved_user_messages
      · simp [hm]
      · cases hp : post (userCaptureRequest st m now) with
        | raised e => simp [hm, hp]; exact ⟨m, rfl⟩
        | completed s => simp [hm, hp]; exact ⟨m, rfl⟩

/-- The chat-start body never touches the pending tool context or the
assistant de-duplication list. -/
theorem chatStartBody_frame (st : WeavelCallbackHandler) (messages : List (List BaseMessage))
    (post : HttpRequest → PostResult) (now : String) :
    (chatStartBody st messages post now).1.toolCtx = st.toolCtx ∧
      (chatStartBody st messages post now).1.saved_assistant_messages =
        st.saved_assistant_messages := by
  rcases messages with _ | ⟨first, tail⟩
  · exact ⟨rfl, rfl⟩
  · simp only [chatStartBody]
    cases hg : get_last_user_message first with
    | none => exact ⟨rfl, rfl⟩
    | some m =>
      by_cases hm : m ∈ st.saved_user_messages
      · simp [hm]
      · cases hp : post (userCaptureRequest st m now) with
        | raised e => simp [hm, hp]
        | completed s => simp [hm, hp]

/-- Refinement of the llm-end loop against the spec-side description: when
every post completes and every batch is non-empty, the loop sends exactly
`specAssistantSends`, appends exactly those texts, and raises nothing. -/
theorem llmEndBody_spec (post : HttpRequest → PostResult) (now : String)
    (hpost : ∀ r, completes (post r) = true) :
    ∀ (gens : List (List Generation)) (st : WeavelCallbackHandler), (∀ b ∈ gens, b ≠ []) →
      llmEndBody post now st gens =
        ({ st with saved_assistant_messages :=
            st.saved_assistant_messages ++
              specAssistantSends st.saved_assistant_messages gens },
         (specAssistantSends st.saved_assistant_messages gens).map
           (fun t => assistantCaptureRequest st t now),
         none) := by
  intro gens
  induction gens with
  | nil => intro st h; simp [llmEndBody, specAssistantSends]
  | cons batch rest ih =>
    intro st h
    cases batch with
    | nil =>
      have := h [] (by simp)
      simp at this
    | cons g bg =>
      have hrest : ∀ b ∈ rest, b ≠ [] := fun b hb => h b (List.mem_cons_of_mem _ hb)
      by_cases hdup : g.text ∈ st.saved_assistant_messages
      · simp [llmEndBody, specAssistantSends, hdup]
      · have hc := hpost (assistantCaptureRequest st g.text now)
        cases hp : post (assistantCaptureRequest st g.text now) with
        | raised e => rw [hp] at hc; simp [completes] at hc
        | completed s =>
          have hIH := ih
            { st with saved_assistant_messages := st.saved_assistant_messages ++ [g.text] } hrest
          simp [llmEndBody, specAssistantSends, hdup, hp, hIH, List.append_assoc]

/-- Every request attempted by the llm-end loop is the assistant capture
request for some text (with the identity fields of the starting state). -/
theorem llmEndBody_reqs (post : HttpRequest → PostResult) (now : String) :
    ∀ (gens : List (List Generation)) (st : WeavelCallbackHandler),
      ∀ r ∈ (llmEndBody post now st gens).2.1, ∃ t, r = assistantCaptureRequest st t now := by
  intro gens
  induction gens with
  | nil => intro st r hr; simp [llmEndBody] at hr
  | cons batch rest ih =>
    intro st r hr
    cases batch with
    | nil => simp [llmEndBody] at hr
    | cons g bg =>
      by_cases hdup : g.text ∈ st.saved_assistant_messages
      · simp [llmEndBody, hdup] at hr
      · cases hp : post (assistantCaptureRequest st g.text now) with
        | raised e =>
          simp [llmEndBody, hdup, hp] at hr
          exact ⟨g.text, hr⟩
        | completed s =>
          simp only [llmEndBody, if_neg hdup, hp, List.mem_cons] at hr
          rcases hr with h | h
          · exact ⟨g.text, h⟩
          · obtain ⟨t, ht⟩ :=
              ih { st with saved_assistant_messages := st.saved_assistant_messages ++ [g.text] }
                r h
            exact ⟨t, ht⟩

/-- The llm-end loop never touches the pending tool context or the user
de-duplication list. -/
theorem llmEndBody_frame (post : HttpRequest → PostResult) (now : String) :
    ∀ (gens : List (List Generation)) (st : WeavelCallbackHandler),
      (llmEndBody post now st gens).1.toolCtx = st.toolCtx ∧
        (llmEndBody post now st gens).1.saved_user_messages = st.saved_user_messages := by
  intro gens
  induction gens with
  | nil => intro st; exact ⟨rfl, rfl⟩
  | cons batch rest ih =>
    intro st
    cases batch with
    | nil => exact ⟨rfl, rfl⟩
    | cons g bg =>
      by_cases hdup : g.text ∈ st.saved_assistant_messages
      · simp [llmEndBody, hdup]
      · cases hp : post (assistantCaptureRequest st g.text now) with
        | raised e => simp [llmEndBody, hdup, hp]
        | completed s =>
          simp only [llmEndBody, if_neg hdup, hp]
          exact ih _

/-- If the llm-end loop processes a prefix of batches cleanly (no exception,
and every batch produced a request, i.e. no early dedup stop), then running it
on the prefix followed by further batches continues from the reached state,
keeping the prefix requests. -/
theorem llmEndBody_clean_append (post : HttpRequest → PostResult) (now : String) :
    ∀ (pre : List (List Generation)) (st st1 : WeavelCallbackHandler) (reqs1 : List HttpRequest),
      llmEndBody post now st pre = (st1, reqs1, none) →
      reqs1.length = pre.length →
      ∀ ys, llmEndBody post now st (pre ++ ys) =
        ((llmEndBody post now st1 ys).1,
         reqs1 ++ (llmEndBody post now st1 ys).2.1,
         (llmEndBody post now st1 ys).2.2) := by
  intro pre
  induction pre with
  | nil =>
    intro st st1 reqs1 h hl ys
    simp only [llmEndBody, Prod.mk.injEq] at h
    obtain ⟨h1, h2, -⟩ := h
    subst h1; subst h2
    simp
  | cons batch pre ih =>
    intro st st1 reqs1 h hl ys
    cases batch with
    | nil => simp [llmEndBody] at h
    | cons g bg =>
      by_cases hdup : g.text ∈ st.saved_assistant_messages
      · simp only [llmEndBody, if_pos hdup, Prod.mk.injEq] at h
        obtain ⟨-, h2, -⟩ := h
        rw [← h2] at hl
        simp at hl
      · cases hp : post (assistantCaptureRequest st g.text now) with
        | raised e => simp [llmEndBody, if_neg hdup, hp] at h
        | completed s =>
          rcases hq : llmEndBody post now
              { st with saved_assistant_messages := st.saved_assistant_messages ++ [g.text] }
              pre with ⟨stB, reqsB, errB⟩
          simp only [llmEndBody, if_neg hdup, hp, hq, Prod.mk.injEq] at h
          obtain ⟨h1, h2, h3⟩ := h
          subst h1
          subst h2
          simp only [List.length_cons, Nat.succ.injEq] at hl
          cases errB with
          | some e => simp at h3
          | none =>
            have hIH := ih _ stB reqsB hq hl ys
            simp only [llmEndBody, if_neg hdup, hp, List.append_eq]
            rw [hIH]
            simp

/-- Refinement of a sequence of chat-start calls against the spec-side
de-duplication discipline: when every post completes, the requests attempted
are exactly one user capture request per extracted message not already sent,
and the user de-duplication list grows by exactly those messages. -/
theorem runChatStarts_spec (post : HttpRequest → PostResult) (now : String)
    (hpost : ∀ r, completes (post r) = true) :
    ∀ (calls : List (List (List BaseMessage))) (st : WeavelCallbackHandler),
      runChatStarts post now st calls =
        ({ st with saved_user_messages :=
            st.saved_user_messages ++
              specUserSends st.saved_user_messages (calls.map extractUserMessage) },
         (specUserSends st.saved_user_messages (calls.map extractUserMessage)).map
           (fun m => userCaptureRequest st m now)) := by
  intro calls
  induction calls with
  | nil => intro st; simp [runChatStarts, specUserSends]
  | cons c cs ih =>
    intro st
    rcases c with _ | ⟨first, tail⟩
    · simp only [runChatStarts, on_chat_model_start, chatStartBody, runHook]
      rw [ih st]
      simp [extractUserMessage, specUserSends]
    · simp only [runChatStarts, on_chat_model_start, chatStartBody]
      cases hg : get_last_user_message first with
      | none =>
        simp only [runHook]
        rw [ih st]
        simp [extractUserMessage, specUserSends, hg]
      | some m =>
        by_cases hm : m ∈ st.saved_user_messages
        · simp only [if_pos hm, runHook]
          rw [ih st]
          simp [extractUserMessage, specUserSends, hg, hm]
        · have hc := hpost (userCaptureRequest st m now)
          cases hp : post (userCaptureRequest st m now) with
          | raised e => rw [hp] at hc; simp [completes] at hc
          | completed s =>
            simp only [if_neg hm, hp, runHook]
            rw [ih { st with saved_user_messages := st.saved_user_messages ++ [m] }]
            simp [extractUserMessage, specUserSends, hg, hm, List.append_assoc]

/-- Scanning skips over a block of non-human messages. -/
theorem firstHuman_append (xs ys : List BaseMessage) (h : ∀ m ∈ xs, isHuman m = false) :
    firstHuman (xs ++ ys) = firstHuman ys := by
  induction xs with
  | nil => rfl
  | cons m xs ih =>
    cases m with
    | human c =>
      have := h (BaseMessage.human c) (by simp)
      simp [isHuman] at this
    | other c =>
      simp only [List.cons_append, firstHuman]
      exact ih fun m hm => h m (List.mem_cons_of_mem _ hm)

/-- A list with no human message has no first human. -/
theorem firstHuman_none (xs : List BaseMessage) (h : ∀ m ∈ xs, isHuman m = false) :
    firstHuman xs = none := by
  have := firstHuman_append xs [] h
  simpa using this

/-- `pyFalsy o = false` exactly when `o` is a present, non-empty string. -/
theorem pyFalsy_eq_false_iff (o : Option String) :
    pyFalsy o = false ↔ ∃ s, o = some s ∧ s ≠ "" := by
  cases o with
  | none => simp [pyFalsy]
  | some s => simp [pyFalsy]

/-! ## Claim theorems -/

/-- C4: construction of the handler fails (the validation error propagates to
the caller) if and only if `user_id` or `trace_id` is empty or absent; with
both non-empty strings, construction succeeds. -/
theorem construction_fails_iff_identity_falsy :
    ∀ (uid tid umid : Option String) (umm : Option Json) (amid : Option String)
      (amm : Option Json) (key : Option String),
      (∃ h, initHandler uid tid umid umm amid amm key = Except.ok h) ↔
        ((∃ u, uid = some u ∧ u ≠ "") ∧ (∃ t, tid = some t ∧ t ≠ "")) := by
  intro uid tid umid umm amid amm key
  constructor
  · rintro ⟨h, hh⟩
    by_cases hc : (pyFalsy uid || pyFalsy tid) = true
    · simp [initHandler, hc] at hh
    · have hc2 : (pyFalsy uid || pyFalsy tid) = false := by
        cases hb : (pyFalsy uid || pyFalsy tid) with
        | true => exact absurd hb hc
        | false => rfl
      rw [Bool.or_eq_false_iff] at hc2
      exact ⟨(pyFalsy_eq_false_iff uid).mp hc2.1, (pyFalsy_eq_false_iff tid).mp hc2.2⟩
  · rintro ⟨hu, ht⟩
    have h1 := (pyFalsy_eq_false_iff uid).mpr hu
    have h2 := (pyFalsy_eq_false_iff tid).mpr ht
    refine ⟨{ user_id := uid.getD "", trace_id := tid.getD "", user_message_id := umid,
              user_message_metadata := umm, assistant_message_id := amid,
              assistant_message_metadata := amm, weavel_api_key := key,
              saved_user_messages := [], saved_assistant_messages := [],
              toolCtx := none }, ?_⟩
    simp [initHandler, h1, h2]

/-- Witness for C4: construction succeeds on `("u1", "t1")` and fails when
`user_id` is the empty string. -/
theorem construction_fails_iff_identity_falsy_witness :
    (∃ h, initHandler (some "u1") (some "t1") none none none none none = Except.ok h) ∧
    ¬ (∃ h, initHandler (some "") (some "t1") none none none none none = Except.ok h) := by
  constructor
  · exact (construction_fails_iff_identity_falsy (some "u1") (some "t1")
      none none none none none).mpr ⟨⟨"u1", rfl, by decide⟩, ⟨"t1", rfl, by decide⟩⟩
  · intro hex
    obtain ⟨u, hu, hne⟩ := ((construction_fails_iff_identity_falsy (some "") (some "t1")
      none none none none none).mp hex).1
    injection hu with h
    exact hne h.symm

/-- C3: every exception raised inside the body of any of the four lifecycle
hooks is caught inside that hook, logged with the hook name, and never
propagated — for every input (any state, messages, generations, serialized
descriptor, output, and any network behaviour) each hook returns normally
(`Except.ok`). -/
theorem hooks_never_propagate :
    ∀ (st : WeavelCallbackHandler) (messages : List (List BaseMessage))
      (gens : List (List Generation)) (serialized : List (String × Json))
      (inputs : Option Json) (output : Json) (post : HttpRequest → PostResult)
      (now : String),
      (∃ o, on_chat_model_start st messages post now = Except.ok o) ∧
      (∃ o, on_llm_end st gens post now = Except.ok o) ∧
      (∃ o, on_tool_start st serialized inputs = Except.ok o) ∧
      (∃ o, on_tool_end st output post now = Except.ok o) ∧
      (∀ st1 reqs e, chatStartBody st messages post now = (st1, reqs, some e) →
        on_chat_model_start st messages post now =
          Except.ok (st1, reqs, [errLog "on_chat_model_start" e])) ∧
      (∀ st1 reqs e, llmEndBody post now st gens = (st1, reqs, some e) →
        on_llm_end st gens post now = Except.ok (st1, reqs, [errLog "on_llm_end" e])) ∧
      (∀ st1 reqs e, toolEndBody st output post now = (st1, reqs, some e) →
        on_tool_end st output post now = Except.ok (st1, reqs, [errLog "on_tool_end" e])) := by
  intro st messages gens serialized inputs output post now
  refine ⟨runHook_isOk _ _, runHook_isOk _ _, runHook_isOk _ _, runHook_isOk _ _, ?_, ?_, ?_⟩
  · intro st1 reqs e h
    unfold on_chat_model_start
    rw [h]
    rfl
  · intro st1 reqs e h
    unfold on_llm_end
    rw [h]
    rfl
  · intro st1 reqs e h
    unfold on_tool_end
    rw [h]
    rfl

/-- Witness for C3: on an empty `messages` list the chat-start body raises
`IndexError`; the hook still returns normally with the error logged under the
hook name. -/
theorem hooks_never_propagate_witness :
    (∃ o, on_chat_model_start handler0 [] alwaysOk "T0" = Except.ok o) ∧
    chatStartBody handler0 [] alwaysOk "T0" =
      (handler0, [], some "list index out of range") ∧
    on_chat_model_start handler0 [] alwaysOk "T0" =
      Except.ok (handler0, [], [errLog "on_chat_model_start" "list index out of range"]) := by
  refine ⟨?_, rfl, ?_⟩
  · exact (hooks_never_propagate handler0 [] [] [] none Json.null alwaysOk "T0").1
  · exact (hooks_never_propagate handler0 [] [] [] none Json.null alwaysOk "T0").2.2.2.2.1
      handler0 [] "list index out of range" rfl

/-- Counterexample to C6 as stated: with a pending tool context whose stored
tool name is the empty string — not a non-empty string — `on_tool_end` still
sends a track-event request (carrying the empty name) and logs no error,
because the source only checks `self.tool_name is None`. -/
theorem tool_end_empty_name_still_sends :
    on_tool_end handlerEmptyName (Json.str "out") alwaysOk "T8" =
      Except.ok (handlerEmptyName,
        [trackEventRequest handlerEmptyName (Json.str "") none (Json.str "out") "T8"], []) ∧
    handlerEmptyName.toolCtx =
      some { tool_name := some (Json.str ""), tool_inputs := none } :=
  ⟨rfl, rfl⟩

/-- Evaluation of the tool-end body when no tool-start ever ran. -/
theorem toolEndBody_noCtx (st : WeavelCallbackHandler) (output : Json)
    (post : HttpRequest → PostResult) (now : String) (h : st.toolCtx = none) :
    toolEndBody st output post now =
      (st, [], some "object has no attribute tool_name") := by
  unfold toolEndBody
  rw [h]

/-- Evaluation of the tool-end body when the stored tool name is `None`. -/
theorem toolEndBody_noneName (st : WeavelCallbackHandler) (output : Json)
    (post : HttpRequest → PostResult) (now : String) (i : Option Json)
    (h : st.toolCtx = some { tool_name := none, tool_inputs := i }) :
    toolEndBody st output post now =
      (st, [], some "name must be passed in serialized") := by
  unfold toolEndBody
  rw [h]

/-- Evaluation of the tool-end body under a pending context with a
non-`None` name. -/
theorem toolEndBody_some (st : WeavelCallbackHandler) (output : Json)
    (post : HttpRequest → PostResult) (now : String) (n : Json) (i : Option Json)
    (h : st.toolCtx = some { tool_name := some n, tool_inputs := i }) :
    toolEndBody st output post now =
      match post (trackEventRequest st n i output now) with
      | PostResult.raised e => (st, [trackEventRequest st n i output now], some e)
      | PostResult.completed _ => (st, [trackEventRequest st n i output now], none) := by
  unfold toolEndBody
  rw [h]

/-- C6 (amended): a tool-end call logs a local error, sends no request and
returns normally exactly when the pending tool context is absent or its
stored tool name is `None`; a track-event request is sent whenever a pending
context with a non-`None` tool name exists — even when that name is the empty
string. -/
theorem tool_end_sends_iff_name_not_none :
    ∀ (st : WeavelCallbackHandler) (output : Json) (post : HttpRequest → PostResult)
      (now : String),
      (st.toolCtx = none →
        on_tool_end st output post now =
          Except.ok (st, [], [errLog "on_tool_end" "object has no attribute tool_name"])) ∧
      (∀ i, st.toolCtx = some { tool_name := none, tool_inputs := i } →
        on_tool_end st output post now =
          Except.ok (st, [], [errLog "on_tool_end" "name must be passed in serialized"])) ∧
      (∀ n i, st.toolCtx = some { tool_name := some n, tool_inputs := i } →
        ∃ logs, on_tool_end st output post now =
          Except.ok (st, [trackEventRequest st n i output now], logs)) := by
  intro st output post now
  refine ⟨?_, ?_, ?_⟩
  · intro h
    unfold on_tool_end toolEndBody
    rw [h]
    rfl
  · intro i h
    unfold on_tool_end toolEndBody
    rw [h]
    rfl
  · intro n i h
    unfold on_tool_end
    rw [toolEndBody_some st output post now n i h]
    cases hp : post (trackEventRequest st n i output now) with
    | raised e => exact ⟨[errLog "on_tool_end" e], rfl⟩
    | completed s => exact ⟨[], rfl⟩

/-- Witness for the amended C6: a pending context with tool name `"search"`
sends the track-event request; a handler without any tool-start logs the
attribute error and sends nothing. -/
theorem tool_end_sends_iff_name_not_none_witness :
    handlerTool.toolCtx = some { tool_name := some (Json.str "search"), tool_inputs := some (Json.obj [("q", Json.str "x")]) } ∧
    (∃ logs, on_tool_end handlerTool (Json.str "out") alwaysOk "T9" =
      Except.ok (handlerTool,
        [trackEventRequest handlerTool (Json.str "search")
          (some (Json.obj [("q", Json.str "x")])) (Json.str "out") "T9"], logs)) ∧
    handler0.toolCtx = none ∧
    on_tool_end handler0 (Json.str "out") alwaysOk "T9" =
      Except.ok (handler0, [], [errLog "on_tool_end" "object has no attribute tool_name"]) := by
  refine ⟨rfl, ?_, rfl, ?_⟩
  · exact (tool_end_sends_iff_name_not_none handlerTool (Json.str "out") alwaysOk "T9").2.2
      (Json.str "search") (some (Json.obj [("q", Json.str "x")])) rfl
  · exact (tool_end_sends_iff_name_not_none handler0 (Json.str "out") alwaysOk "T9").1 rfl

/-- C7: tool-end never clears the stored pending tool context — the resulting
state is the starting state itself, so a second tool-end with no intervening
tool-start sends a second track-event request with the same tool name and
inputs alongside the new output; only tool-start overwrites the pair (the
chat-start and llm-end bodies leave it untouched as well). -/
theorem tool_end_preserves_tool_context :
    ∀ (st : WeavelCallbackHandler) (output output2 : Json)
      (post : HttpRequest → PostResult) (now : String),
      (∃ reqs logs, on_tool_end st output post now = Except.ok (st, reqs, logs)) ∧
      (∀ n i, st.toolCtx = some { tool_name := some n, tool_inputs := i } →
        ∃ l1 l2,
          on_tool_end st output post now =
            Except.ok (st, [trackEventRequest st n i output now], l1) ∧
          on_tool_end st output2 post now =
            Except.ok (st, [trackEventRequest st n i output2 now], l2)) ∧
      (∀ serialized inputs, on_tool_start st serialized inputs =
        Except.ok ({ st with toolCtx := some { tool_name := getNameOrNone serialized, tool_inputs := inputs } }, [], [])) ∧
      (∀ messages, (chatStartBody st messages post now).1.toolCtx = st.toolCtx) ∧
      (∀ gens, (llmEndBody post now st gens).1.toolCtx = st.toolCtx) := by
  intro st output output2 post now
  refine ⟨?_, ?_, fun serialized inputs => rfl, fun messages =>
    (chatStartBody_frame st messages post now).1, fun gens =>
    (llmEndBody_frame post now gens st).1⟩
  · cases hct : st.toolCtx with
    | none =>
      refine ⟨[], [errLog "on_tool_end" "object has no attribute tool_name"], ?_⟩
      unfold on_tool_end
      rw [toolEndBody_noCtx st output post now hct]
      rfl
    | some ctx =>
      rcases ctx with ⟨name, inp⟩
      cases name with
      | none =>
        refine ⟨[], [errLog "on_tool_end" "name must be passed in serialized"], ?_⟩
        unfold on_tool_end
        rw [toolEndBody_noneName st output post now inp hct]
        rfl
      | some n =>
        unfold on_tool_end
        rw [toolEndBody_some st output post now n inp hct]
        cases hp : post (trackEventRequest st n inp output now) with
        | raised e =>
          exact ⟨[trackEventRequest st n inp output now], [errLog "on_tool_end" e], rfl⟩
        | completed s =>
          exact ⟨[trackEventRequest st n inp output now], [], rfl⟩
  · intro n i h
    have h1 := toolEndBody_some st output post now n i h
    have h2 := toolEndBody_some st output2 post now n i h
    unfold on_tool_end
    rw [h1, h2]
    cases hp1 : post (trackEventRequest st n i output now) with
    | raised e1 =>
      cases hp2 : post (trackEventRequest st n i output2 now) with
      | raised e2 => exact ⟨[errLog "on_tool_end" e1], [errLog "on_tool_end" e2], rfl, rfl⟩
      | completed s2 => exact ⟨[errLog "on_tool_end" e1], [], rfl, rfl⟩
    | completed s1 =>
      cases hp2 : post (trackEventRequest st n i output2 now) with
      | raised e2 => exact ⟨[], [errLog "on_tool_end" e2], rfl, rfl⟩
      | completed s2 => exact ⟨[], [], rfl, rfl⟩

/-- Witness for C7: two consecutive tool-end calls on the same handler both
send the stored `("search", inputs)` pair, each with its own output. -/
theorem tool_end_preserves_tool_context_witness :
    (∃ reqs logs, on_tool_end handlerTool (Json.str "o1") alwaysOk "TA" =
      Except.ok (handlerTool, reqs, logs)) ∧
    (∃ l1 l2,
      on_tool_end handlerTool (Json.str "o1") alwaysOk "TA" =
        Except.ok (handlerTool,
          [trackEventRequest handlerTool (Json.str "search")
            (some (Json.obj [("q", Json.str "x")])) (Json.str "o1") "TA"], l1) ∧
      on_tool_end handlerTool (Json.str "o2") alwaysOk "TA" =
        Except.ok (handlerTool,
          [trackEventRequest handlerTool (Json.str "search")
            (some (Json.obj [("q", Json.str "x")])) (Json.str "o2") "TA"], l2)) := by
  constructor
  · exact (tool_end_preserves_tool_context handlerTool (Json.str "o1") (Json.str "o2")
      alwaysOk "TA").1
  · exact (tool_end_preserves_tool_context handlerTool (Json.str "o1") (Json.str "o2")
      alwaysOk "TA").2.1 (Json.str "search") (some (Json.obj [("q", Json.str "x")])) rfl

/-- C5: for a chat-start call that reaches the send step (a novel extracted
message), the content is appended to the user de-duplication list exactly
when the post attempt completes — whatever HTTP status it returned — and if
the post raises, the de-duplication list (indeed the whole state) is left
unchanged while the error is logged. -/
theorem dedup_appends_iff_send_completes :
    ∀ (st : WeavelCallbackHandler) (first : List BaseMessage)
      (tail : List (List BaseMessage)) (m : String) (post : HttpRequest → PostResult)
      (now : String),
      get_last_user_message first = some m →
      m ∉ st.saved_user_messages →
      (∀ s, post (userCaptureRequest st m now) = PostResult.completed s →
        on_chat_model_start st (first :: tail) post now =
          Except.ok ({ st with saved_user_messages := st.saved_user_messages ++ [m] },
            [userCaptureRequest st m now], [])) ∧
      (∀ e, post (userCaptureRequest st m now) = PostResult.raised e →
        on_chat_model_start st (first :: tail) post now =
          Except.ok (st, [userCaptureRequest st m now],
            [errLog "on_chat_model_start" e])) := by
  intro st first tail m post now hg hm
  constructor
  · intro s hs
    simp only [on_chat_model_start, chatStartBody]
    rw [hg]
    simp [hm, hs, runHook]
  · intro e he
    simp only [on_chat_model_start, chatStartBody]
    rw [hg]
    simp [hm, he, runHook]

/-- Witness for C5: with a completing post of status 500 the content is still
appended; with a raising post the state is unchanged and the error logged. -/
theorem dedup_appends_iff_send_completes_witness :
    get_last_user_message [BaseMessage.human "hello"] = some "hello" ∧
    "hello" ∉ handler0.saved_user_messages ∧
    on_chat_model_start handler0 [[BaseMessage.human "hello"]] always500 "TB" =
      Except.ok ({ handler0 with saved_user_messages := ["hello"] },
        [userCaptureRequest handler0 "hello" "TB"], []) ∧
    on_chat_model_start handler0 [[BaseMessage.human "hello"]] alwaysRaise "TB" =
      Except.ok (handler0, [userCaptureRequest handler0 "hello" "TB"],
        [errLog "on_chat_model_start" "connection error"]) := by
  refine ⟨rfl, by decide, ?_, ?_⟩
  · exact (dedup_appends_iff_send_completes handler0 [BaseMessage.human "hello"] []
      "hello" always500 "TB" rfl (by decide)).1 500 rfl
  · exact (dedup_appends_iff_send_completes handler0 [BaseMessage.human "hello"] []
      "hello" alwaysRaise "TB" rfl (by decide)).2 "connection error" rfl

/-- C8: a chat-start call whose first turn contains no human-authored message
extracts nothing, sends no request and leaves the state unchanged; and when a
human message exists, the extraction returns the content of the last
human-authored message of the sequence. -/
theorem chat_start_no_human_noop :
    ∀ (st : WeavelCallbackHandler) (first : List BaseMessage)
      (tail : List (List BaseMessage)) (post : HttpRequest → PostResult) (now : String),
      ((∀ m ∈ first, isHuman m = false) →
        get_last_user_message first = none ∧
        on_chat_model_start st (first :: tail) post now = Except.ok (st, [], [])) ∧
      (∀ (pre : List BaseMessage) (c : String) (rest : List BaseMessage),
        (∀ m ∈ rest, isHuman m = false) →
        get_last_user_message (pre ++ BaseMessage.human c :: rest) = some c) := by
  intro st first tail post now
  constructor
  · intro h
    have hg : get_last_user_message first = none := by
      unfold get_last_user_message
      exact firstHuman_none _ (fun m hm => h m (List.mem_reverse.mp hm))
    refine ⟨hg, ?_⟩
    simp only [on_chat_model_start, chatStartBody]
    rw [hg]
    rfl
  · intro pre c rest h
    unfold get_last_user_message
    rw [List.reverse_append, List.reverse_cons, List.append_assoc,
      firstHuman_append _ _ (fun m hm => h m (List.mem_reverse.mp hm))]
    rfl

/-- Witness for C8: a turn with only a system message is a no-op; in a turn
with two human messages the later one is extracted. -/
theorem chat_start_no_human_noop_witness :
    (∀ m ∈ [BaseMessage.other "sys"], isHuman m = false) ∧
    get_last_user_message [BaseMessage.other "sys"] = none ∧
    on_chat_model_start handler0 [[BaseMessage.other "sys"]] alwaysOk "TC" =
      Except.ok (handler0, [], []) ∧
    get_last_user_message [BaseMessage.other "s", BaseMessage.human "h1",
      BaseMessage.other "a", BaseMessage.human "h2", BaseMessage.other "b"] = some "h2" := by
  refine ⟨by simp [isHuman], ?_, ?_, ?_⟩
  · exact ((chat_start_no_human_noop handler0 [BaseMessage.other "sys"] [] alwaysOk "TC").1
      (by simp [isHuman])).1
  · exact ((chat_start_no_human_noop handler0 [BaseMessage.other "sys"] [] alwaysOk "TC").1
      (by simp [isHuman])).2
  · exact (chat_start_no_human_noop handler0 [] [] alwaysOk "TC").2
      [BaseMessage.other "s", BaseMessage.human "h1", BaseMessage.other "a"] "h2"
      [BaseMessage.other "b"] (by simp [isHuman])

/-- C1: over any sequence of chat-start calls on one handler instance (with
completing posts), a capture request is sent for exactly those extracted
messages not string-equal to a previously sent user message — the requests
and the growth of the de-duplication list both equal the spec-side
`specUserSends` — and a call whose extracted content was already sent returns
the state unchanged with no request and no log. -/
theorem chat_start_dedup_exact (post : HttpRequest → PostResult) (now : String)
    (hpost : ∀ r, completes (post r) = true) :
    (∀ (calls : List (List (List BaseMessage))) (st : WeavelCallbackHandler),
      runChatStarts post now st calls =
        ({ st with saved_user_messages :=
            st.saved_user_messages ++
              specUserSends st.saved_user_messages (calls.map extractUserMessage) },
         (specUserSends st.saved_user_messages (calls.map extractUserMessage)).map
           (fun m => userCaptureRequest st m now))) ∧
    (∀ (st : WeavelCallbackHandler) (c : List (List BaseMessage)) (m : String),
      extractUserMessage c = some m → m ∈ st.saved_user_messages →
      on_chat_model_start st c post now = Except.ok (st, [], [])) := by
  refine ⟨runChatStarts_spec post now hpost, ?_⟩
  intro st c m hx hm
  rcases c with _ | ⟨first, tail⟩
  · simp [extractUserMessage] at hx
  · simp only [extractUserMessage] at hx
    simp only [on_chat_model_start, chatStartBody]
    rw [hx]
    simp [hm, runHook]

/-- Witness for C1: sending "hello", "hello", "bye" produces exactly two
requests, and a duplicate "hello" call on a handler that already sent it is a
strict no-op. -/
theorem chat_start_dedup_exact_witness :
    (∀ r, completes (alwaysOk r) = true) ∧
    runChatStarts alwaysOk "TD" handler0
        [[[BaseMessage.human "hello"]], [[BaseMessage.human "hello"]],
         [[BaseMessage.human "bye"]]] =
      ({ handler0 with saved_user_messages := ["hello", "bye"] },
       [userCaptureRequest handler0 "hello" "TD", userCaptureRequest handler0 "bye" "TD"]) ∧
    on_chat_model_start { handler0 with saved_user_messages := ["hello"] }
        [[BaseMessage.human "hello"]] alwaysOk "TD" =
      Except.ok ({ handler0 with saved_user_messages := ["hello"] }, [], []) := by
  refine ⟨fun r => rfl, ?_, ?_⟩
  · exact ((chat_start_dedup_exact alwaysOk "TD" (fun r => rfl)).1
      [[[BaseMessage.human "hello"]], [[BaseMessage.human "hello"]],
       [[BaseMessage.human "bye"]]] handler0).trans rfl
  · exact (chat_start_dedup_exact alwaysOk "TD" (fun r => rfl)).2
      { handler0 with saved_user_messages := ["hello"] }
      [[BaseMessage.human "hello"]] "hello" rfl (by decide)

/-- C2: with completing posts and non-empty batches, llm-end processes the
generation batches in order and behaves exactly as `specAssistantSends`: a
batch whose first text is already in the assistant de-duplication list stops
all processing (nothing is sent for it or for any later batch, novel or not),
while every earlier batch was sent and appended. -/
theorem llm_end_early_stop (post : HttpRequest → PostResult) (now : String)
    (hpost : ∀ r, completes (post r) = true) :
    ∀ (st : WeavelCallbackHandler) (gens : List (List Generation)),
      (∀ b ∈ gens, b ≠ []) →
      on_llm_end st gens post now =
        Except.ok
          ({ st with saved_assistant_messages :=
              st.saved_assistant_messages ++
                specAssistantSends st.saved_assistant_messages gens },
           (specAssistantSends st.saved_assistant_messages gens).map
             (fun t => assistantCaptureRequest st t now),
           []) := by
  intro st gens h
  unfold on_llm_end
  rw [llmEndBody_spec post now hpost gens st h]
  rfl

/-- Witness for C2: with "b" already sent, a response with batches
"a", "b", "c" sends only "a" — the dedup hit on batch 2 stops batch 3 even
though "c" is novel. -/
theorem llm_end_early_stop_witness :
    (∀ r, completes (alwaysOk r) = true) ∧
    (∀ b ∈ [[Generation.mk "a"], [Generation.mk "b"], [Generation.mk "c"]],
      b ≠ ([] : List Generation)) ∧
    on_llm_end handlerSentB
        [[Generation.mk "a"], [Generation.mk "b"], [Generation.mk "c"]] alwaysOk "TE" =
      Except.ok ({ handlerSentB with saved_assistant_messages := ["b", "a"] },
        [assistantCaptureRequest handlerSentB "a" "TE"], []) := by
  refine ⟨fun r => rfl, by simp, ?_⟩
  exact (llm_end_early_stop alwaysOk "TE" (fun r => rfl) handlerSentB
    [[Generation.mk "a"], [Generation.mk "b"], [Generation.mk "c"]] (by simp)).trans rfl

/-- Every request attempted by the tool-end body is the track-event request
for the stored pending context and the given output. -/
theorem toolEndBody_reqs (st : WeavelCallbackHandler) (output : Json)
    (post : HttpRequest → PostResult) (now : String) :
    ∀ r ∈ (toolEndBody st output post now).2.1,
      ∃ n i, st.toolCtx = some { tool_name := some n, tool_inputs := i } ∧
        r = trackEventRequest st n i output now := by
  intro r hr
  cases hct : st.toolCtx with
  | none =>
    rw [toolEndBody_noCtx st output post now hct] at hr
    simp at hr
  | some ctx =>
    rcases ctx with ⟨name, inp⟩
    cases name with
    | none =>
      rw [toolEndBody_noneName st output post now inp hct] at hr
      simp at hr
    | some n =>
      rw [toolEndBody_some st output post now n inp hct] at hr
      cases hp : post (trackEventRequest st n inp output now) with
      | raised e =>
        rw [hp] at hr
        simp at hr
        exact ⟨n, inp, rfl, hr⟩
      | completed s =>
        rw [hp] at hr
        simp at hr
        exact ⟨n, inp, rfl, hr⟩

/-- C9: every message-capture request is a POST to
`{base_url}/capture/trace_data` whose JSON body has exactly the keys
`user_id, trace_id, role, content, trace_data_id, metadata, timestamp`, with
role `"user"` from chat-start and `"assistant"` from llm-end; every tool
event is a POST to the distinct endpoint `{base_url}/capture/track_event`
whose JSON body has exactly the keys
`user_id, trace_id, name, properties, timestamp`, `properties` being an
object with exactly the keys `inputs` and `output`. -/
theorem request_shapes :
    ∀ (st : WeavelCallbackHandler) (messages : List (List BaseMessage))
      (gens : List (List Generation)) (output : Json)
      (post : HttpRequest → PostResult) (now : String),
      (∀ r ∈ okReqs (on_chat_model_start st messages post now),
        r.method = "POST" ∧
        r.url = WEAVEL_DEFAULT_API_URL ++ "/capture/trace_data" ∧
        bodyKeys r = ["user_id", "trace_id", "role", "content", "trace_data_id",
          "metadata", "timestamp"] ∧
        bodyField r "role" = some (Json.str "user")) ∧
      (∀ r ∈ okReqs (on_llm_end st gens post now),
        r.method = "POST" ∧
        r.url = WEAVEL_DEFAULT_API_URL ++ "/capture/trace_data" ∧
        bodyKeys r = ["user_id", "trace_id", "role", "content", "trace_data_id",
          "metadata", "timestamp"] ∧
        bodyField r "role" = some (Json.str "assistant")) ∧
      (∀ r ∈ okReqs (on_tool_end st output post now),
        r.method = "POST" ∧
        r.url = WEAVEL_DEFAULT_API_URL ++ "/capture/track_event" ∧
        bodyKeys r = ["user_id", "trace_id", "name", "properties", "timestamp"] ∧
        ∃ i, bodyField r "properties" =
          some (Json.obj [("inputs", i), ("output", output)])) ∧
      WEAVEL_DEFAULT_API_URL ++ "/capture/trace_data" ≠
        WEAVEL_DEFAULT_API_URL ++ "/capture/track_event" := by
  intro st messages gens output post now
  refine ⟨?_, ?_, ?_, by decide⟩
  · intro r hr
    rw [on_chat_model_start, okReqs_runHook] at hr
    obtain ⟨m, rfl⟩ := chatStartBody_reqs st messages post now r hr
    exact ⟨rfl, rfl, rfl, rfl⟩
  · intro r hr
    rw [on_llm_end, okReqs_runHook] at hr
    obtain ⟨t, rfl⟩ := llmEndBody_reqs post now gens st r hr
    exact ⟨rfl, rfl, rfl, rfl⟩
  · intro r hr
    rw [on_tool_end, okReqs_runHook] at hr
    obtain ⟨n, i, -, rfl⟩ := toolEndBody_reqs st output post now r hr
    exact ⟨rfl, rfl, rfl, optJson i, rfl⟩

/-- Witness for C9: the concrete chat-start request for "hello" is in the
hook output and has the specified shape. -/
theorem request_shapes_witness :
    userCaptureRequest handler0 "hello" "TF" ∈
      okReqs (on_chat_model_start handler0 [[BaseMessage.human "hello"]] alwaysOk "TF") ∧
    (userCaptureRequest handler0 "hello" "TF").method = "POST" ∧
    (userCaptureRequest handler0 "hello" "TF").url =
      WEAVEL_DEFAULT_API_URL ++ "/capture/trace_data" ∧
    bodyKeys (userCaptureRequest handler0 "hello" "TF") =
      ["user_id", "trace_id", "role", "content", "trace_data_id", "metadata",
       "timestamp"] ∧
    bodyField (userCaptureRequest handler0 "hello" "TF") "role" =
      some (Json.str "user") := by
  have hmem : userCaptureRequest handler0 "hello" "TF" ∈
      okReqs (on_chat_model_start handler0 [[BaseMessage.human "hello"]] alwaysOk "TF") := by
    have h : okReqs (on_chat_model_start handler0 [[BaseMessage.human "hello"]]
        alwaysOk "TF") = [userCaptureRequest handler0 "hello" "TF"] := rfl
    rw [h]
    exact List.mem_singleton.mpr rfl
  have h := (request_shapes handler0 [[BaseMessage.human "hello"]] [] (Json.str "o")
    alwaysOk "TF").1 _ hmem
  exact ⟨hmem, h.1, h.2.1, h.2.2.1, h.2.2.2⟩

/-- C10: llm-end is not atomic on error — if the post for batch k raises
after a clean prefix of batches was sent, the hook still returns normally,
the requests already issued for batches 1..k-1 stand, the state reached
after those batches (with their texts appended) is retained rather than
rolled back, batch k's request was attempted but not appended, and no later
batch is processed. -/
theorem llm_end_partial_effects :
    ∀ (st st1 : WeavelCallbackHandler) (pre : List (List Generation)) (g : Generation)
      (bg : List Generation) (rest : List (List Generation))
      (reqs1 : List HttpRequest) (post : HttpRequest → PostResult) (now : String)
      (e : String),
      llmEndBody post now st pre = (st1, reqs1, none) →
      reqs1.length = pre.length →
      g.text ∉ st1.saved_assistant_messages →
      post (assistantCaptureRequest st1 g.text now) = PostResult.raised e →
      on_llm_end st (pre ++ (g :: bg) :: rest) post now =
        Except.ok (st1, reqs1 ++ [assistantCaptureRequest st1 g.text now],
          [errLog "on_llm_end" e]) := by
  intro st st1 pre g bg rest reqs1 post now e h hl hn hp
  unfold on_llm_end
  rw [llmEndBody_clean_append post now pre st st1 reqs1 h hl ((g :: bg) :: rest)]
  simp only [llmEndBody, if_neg hn, hp]
  rfl

/-- Witness for C10: on a fresh handler, batches "a", "b", "c" with the
network raising exactly on "b": the request for "a" stands and "a" stays
appended, the "b" request was attempted, "c" is never processed, and the
error is logged. -/
theorem llm_end_partial_effects_witness :
    llmEndBody failOnB "TG" handler0 [[Generation.mk "a"]] =
      ({ handler0 with saved_assistant_messages := ["a"] },
       [assistantCaptureRequest handler0 "a" "TG"], none) ∧
    (Generation.mk "b").text ∉
      ({ handler0 with saved_assistant_messages := ["a"] } :
        WeavelCallbackHandler).saved_assistant_messages ∧
    failOnB (assistantCaptureRequest
      { handler0 with saved_assistant_messages := ["a"] } "b" "TG") =
      PostResult.raised "boom" ∧
    on_llm_end handler0 [[Generation.mk "a"], [Generation.mk "b"], [Generation.mk "c"]]
        failOnB "TG" =
      Except.ok ({ handler0 with saved_assistant_messages := ["a"] },
        [assistantCaptureRequest handler0 "a" "TG",
         assistantCaptureRequest { handler0 with saved_assistant_messages := ["a"] } "b" "TG"],
        [errLog "on_llm_end" "boom"]) := by
  refine ⟨rfl, by decide, rfl, ?_⟩
  exact llm_end_partial_effects handler0
    { handler0 with saved_assistant_messages := ["a"] }
    [[Generation.mk "a"]] (Generation.mk "b") [] [[Generation.mk "c"]]
    [assistantCaptureRequest handler0 "a" "TG"] failOnB "TG" "boom"
    rfl rfl (by decide) rfl
